import Mathlib

/-!
Shallow embedding of the Mamba command-line dispatcher core
(`Command`, its flag scopes, the standard positional-argument
validators, `Find`, `AddCommand`/`RemoveCommand` and `execute`),
together with theorems settling the frozen claims about it.

Conventions of the embedding:
* Go errors are `Option String` (`some msg` is a non-nil error).
* The lifecycle callbacks' only observable effects are (1) the error an
  `E`-variant returns and (2) the fact that a callback was called; a
  fallible callback is modelled as `Option (List String → Option String)`
  (the `cmd` receiver argument is dropped: no claim depends on a callback
  reading the receiver), a non-fallible callback cannot signal anything,
  so only its presence is modelled (a `Bool`).
* Writes to streams and callback invocations are recorded in an event
  trace (`Ev`); streams are numbered, `0` standing for the process
  stderr and `1` for stdout, bound streams getting numbers `≥ 2`.
* `Usage()` renders presentation text that is out of the modelled core;
  the event records which node's usage text was rendered and to which
  stream it was written, which is all the claims mention.
-/

namespace Mamba

/-- One pflag flag descriptor: name, optional one-character shorthand
(`""` = none), usage text, default value, and whether the flag is a
boolean (takes no value argument). -/
structure Flag where
  name : String
  shorthand : String
  usage : String
  defValue : String
  isBool : Bool
deriving DecidableEq, Repr

/-- `FlagSet.Lookup(name)`: the first flag with the given name. -/
def lookupFlag (fs : List Flag) (name : String) : Option Flag :=
  fs.find? (fun f => f.name == name)

/-- Shorthand lookup used by the parser (`""` never matches). -/
def lookupShorthand (fs : List Flag) (sh : String) : Option Flag :=
  fs.find? (fun f => sh != "" && f.shorthand == sh)

/-- `FlagSet.AddFlag`: registration appends to the set. -/
def addFlag (fs : List Flag) (f : Flag) : List Flag :=
  fs ++ [f]

/-- One `VisitAll` pass of `mergePersistentFlags`: each flag of `new`
is added to `fs` only when its name is not already present
(`if c.Flags().Lookup(f.Name) == nil { c.Flags().AddFlag(f) }`).
pflag's `VisitAll` enumerates in sorted name order; since a flag is
added exactly when its name is absent, the set of names added and the
per-name descriptor chosen do not depend on that order, and the claims
only look names up, so `new` is walked in registration order here. -/
def addAbsent (fs : List Flag) (new : List Flag) : List Flag :=
  new.foldl (fun acc f => if lookupFlag acc f.name = none then addFlag acc f else acc) fs

/-- The five lifecycle stages of §4.4. -/
inductive Stage where
  | pPre
  | pre
  | run
  | post
  | pPost
deriving DecidableEq, Repr

/-- Observable events of one `execute` call: a lifecycle callback
invocation, an error-text write (`fmt.Fprintln(stream, err)`), or a
usage-text write (`Usage()` rendering node `owner`'s usage). -/
inductive Ev where
  | stage (s : Stage)
  | errWrite (stream : Nat) (msg : String)
  | usageWrite (stream : Nat) (owner : String)
deriving DecidableEq, Repr

/-- The deep-embedded positional validators (`Command.Args` values). -/
inductive ArgSpec where
  | noArgs
  | arbitraryArgs
  | minimumNArgs (n : Int)
  | maximumNArgs (n : Int)
  | exactArgs (n : Int)
  | rangeArgs (mn mx : Int)
deriving DecidableEq, Repr

/-- All fields of `Command` the claims depend on, except the child
list (which makes the type recursive, see `Cmd`). Field names follow
the Go struct; `run`, `preRun`, ... record the presence of the
non-fallible callback variants. -/
structure CmdData where
  use : String
  aliases : List String := []
  silenceErrors : Bool := false
  silenceUsage : Bool := false
  disableFlagParsing : Bool := false
  argsv : Option ArgSpec := none
  runE : Option (List String → Option String) := none
  run : Bool := false
  preRunE : Option (List String → Option String) := none
  preRun : Bool := false
  postRunE : Option (List String → Option String) := none
  postRun : Bool := false
  persistentPreRunE : Option (List String → Option String) := none
  persistentPreRun : Bool := false
  persistentPostRunE : Option (List String → Option String) := none
  persistentPostRun : Bool := false
  flags : List Flag := []
  pflags : List Flag := []
  lflags : List Flag := []
  output : Option Nat := none
  errOutput : Option Nat := none

/-- A `Command` value: its scalar data plus the ordered child list
(`commands`, insertion order preserved). -/
inductive Cmd where
  | mk (data : CmdData) (commands : List Cmd)

/-- Scalar fields of a command. -/
def Cmd.data : Cmd → CmdData
  | .mk d _ => d

/-- `Commands()`: the ordered subcommand list. -/
def Cmd.commands : Cmd → List Cmd
  | .mk _ cs => cs

/-- `Name()`: the substring of `Use` before the first space
(`strings.Index(name, " ")` then `name[:i]`; the whole string when it
has no space). -/
def Cmd.name (c : Cmd) : String :=
  ⟨c.data.use.toList.takeWhile (fun ch => ch != ' ')⟩

/-- `HasAlias(s)`: whether `s` is among the aliases. -/
def Cmd.hasAlias (c : Cmd) (s : String) : Bool :=
  c.data.aliases.contains s

/-- The process stderr stream number. -/
def stderrId : Nat := 0

/-- The process stdout stream number. -/
def stdoutId : Nat := 1

/-- `ErrOrStderr()`. In the source the fallback walks the parent chain
before reaching `os.Stderr`; `execute`'s receiver is the tree root
(parent nil), for which the chain collapses to the node's own binding
or stderr. -/
def Cmd.errOrStderr (c : Cmd) : Nat :=
  c.data.errOutput.getD stderrId

/-- `OutOrStdout()`, likewise for the root receiver. -/
def Cmd.outOrStdout (c : Cmd) : Nat :=
  c.data.output.getD stdoutId

/-- `NoArgs`: rejects any positional argument, citing the first one. -/
def NoArgs (cmd : Cmd) : List String → Option String
  | [] => none
  | a :: _ => some ("unknown command \"" ++ a ++ "\" for \"" ++ cmd.data.use ++ "\"")

/-- `ArbitraryArgs`: always succeeds. -/
def ArbitraryArgs (_ : Cmd) (_ : List String) : Option String :=
  none

/-- `MinimumNArgs(n)`: fails when fewer than `n` args were received. -/
def MinimumNArgs (n : Int) (_ : Cmd) (args : List String) : Option String :=
  if (args.length : Int) < n then
    some ("requires at least " ++ toString n ++ " arg(s), only received " ++ toString args.length)
  else none

/-- `MaximumNArgs(n)`: fails when more than `n` args were received. -/
def MaximumNArgs (n : Int) (_ : Cmd) (args : List String) : Option String :=
  if (args.length : Int) > n then
    some ("accepts at most " ++ toString n ++ " arg(s), received " ++ toString args.length)
  else none

/-- `ExactArgs(n)`: fails unless exactly `n` args were received. -/
def ExactArgs (n : Int) (_ : Cmd) (args : List String) : Option String :=
  if (args.length : Int) ≠ n then
    some ("accepts " ++ toString n ++ " arg(s), received " ++ toString args.length)
  else none

/-- `RangeArgs(min, max)`: fails outside the inclusive range. -/
def RangeArgs (mn mx : Int) (_ : Cmd) (args : List String) : Option String :=
  if (args.length : Int) < mn || (args.length : Int) > mx then
    some ("accepts between " ++ toString mn ++ " and " ++ toString mx ++
      " arg(s), received " ++ toString args.length)
  else none

/-- Interpretation of a stored `Args` value on the resolved command and
its leftover args. -/
def runArgs : ArgSpec → Cmd → List String → Option String
  | .noArgs, c, args => NoArgs c args
  | .arbitraryArgs, c, args => ArbitraryArgs c args
  | .minimumNArgs n, c, args => MinimumNArgs n c args
  | .maximumNArgs n, c, args => MaximumNArgs n c args
  | .exactArgs n, c, args => ExactArgs n c args
  | .rangeArgs mn mx, c, args => RangeArgs mn mx c args

/-- `Find(args)`: empty token list resolves to the current node;
otherwise the first child whose name or alias equals the head token is
recursed into, and if none matches the current node is the target with
the whole list as remainder. (The Go signature also returns an error,
which is always nil.) -/
def find : Cmd → List String → Cmd × List String
  | c, [] => (c, [])
  | c, a :: rest =>
    match c.commands.find? (fun ch => ch.name == a || ch.hasAlias a) with
    | some ch => find ch rest
    | none => (c, a :: rest)

/-- `mergePersistentFlags()` as it affects the node it is called on:
the parent's persistent flags, then the node's own persistent flags,
then its local flags are merged into the node's full set, each one
added only when its name is absent. (The recursive call on the parent
mutates only the ancestors' own full sets and does not feed into this
node's merge, so the direct parent's persistent set is the only
inherited input; for the root `parentPflags` is `[]`, matching the
skipped parent branch.) -/
def mergePersistentFlags (parentPflags : List Flag) (c : CmdData) : CmdData :=
  let fs := addAbsent c.flags parentPflags
  let fs := addAbsent fs c.pflags
  let fs := addAbsent fs c.lflags
  { c with flags := fs }

/-- The effective flag set `ParseFlags` parses for the root receiver. -/
def effectiveFlags (c : Cmd) : List Flag :=
  (mergePersistentFlags [] c.data).flags

/-- Modelled from the spec: the external pflag collaborator's
`FlagSet.Parse` (its source is not part of this repository). Per §4.1
it consumes recognized `--name` / `--name=value` / `-x` / `-x value` /
`-x=value` tokens and returns the non-flag remainder, failing on an
unknown flag or a missing required value, and per §6 `-h`/`--help` is
reserved: an unknown help flag yields the distinguished help-requested
error. Value assignment is not modelled (no claim reads a parsed
value). -/
def parseFlags (fs : List Flag) : List String → Except String (List String)
  | [] => .ok []
  | tok :: rest =>
    match tok.toList with
    | '-' :: c1 :: body =>
      if c1 = '-' then
        let name : String := ⟨body.takeWhile (fun ch => ch != '=')⟩
        match lookupFlag fs name with
        | none =>
          if name == "help" then .error "pflag: help requested"
          else .error ("unknown flag: --" ++ name)
        | some f =>
          if body.contains '=' then parseFlags fs rest
          else if f.isBool then parseFlags fs rest
          else
            match rest with
            | [] => .error ("flag needs an argument: --" ++ name)
            | _ :: rest2 => parseFlags fs rest2
      else
        let sh : String := ⟨[c1]⟩
        match lookupShorthand fs sh with
        | none =>
          if sh == "h" then .error "pflag: help requested"
          else .error ("unknown shorthand flag: -" ++ sh)
        | some f =>
          if body.length > 0 then parseFlags fs rest
          else if f.isBool then parseFlags fs rest
          else
            match rest with
            | [] => .error ("flag needs an argument: -" ++ sh)
            | _ :: rest2 => parseFlags fs rest2
    | _ => (parseFlags fs rest).map (fun r => tok :: r)

/-- `executePersistentPreRun`: the fallible variant takes precedence;
with neither variant set the stage is a no-op. The trace component
records whether a callback was called. -/
def executePersistentPreRun (c : Cmd) (args : List String) : Option String × List Ev :=
  match c.data.persistentPreRunE with
  | some f => (f args, [.stage .pPre])
  | none =>
    if c.data.persistentPreRun then (none, [.stage .pPre]) else (none, [])

/-- `executePreRun`, as above. -/
def executePreRun (c : Cmd) (args : List String) : Option String × List Ev :=
  match c.data.preRunE with
  | some f => (f args, [.stage .pre])
  | none =>
    if c.data.preRun then (none, [.stage .pre]) else (none, [])

/-- `executeRun`: `RunE` takes precedence over `Run`; with neither set
the stage is a no-op returning nil. -/
def executeRun (c : Cmd) (args : List String) : Option String × List Ev :=
  match c.data.runE with
  | some f => (f args, [.stage .run])
  | none =>
    if c.data.run then (none, [.stage .run]) else (none, [])

/-- `executePostRun`, as above. -/
def executePostRun (c : Cmd) (args : List String) : Option String × List Ev :=
  match c.data.postRunE with
  | some f => (f args, [.stage .post])
  | none =>
    if c.data.postRun then (none, [.stage .post]) else (none, [])

/-- `executePersistentPostRun`, as above. -/
def executePersistentPostRun (c : Cmd) (args : List String) : Option String × List Ev :=
  match c.data.persistentPostRunE with
  | some f => (f args, [.stage .pPost])
  | none =>
    if c.data.persistentPostRun then (none, [.stage .pPost]) else (none, [])

/-- `Usage()`: renders the receiver's usage/help text (ModernHelp or
UsageString — presentation glue outside the modelled core) to the
receiver's output stream and returns nil. The event records whose
usage text went to which stream. -/
def usage (c : Cmd) : Option String × List Ev :=
  (none, [.usageWrite c.outOrStdout c.name])

/-- The flag-parsing step of `execute`: when parsing is not disabled,
`ParseFlags` (merge, then parse the full set) runs and the parsed
set's leftover arguments become the working token list; when disabled
the raw tokens are used unchanged. -/
def parsePhase (c : Cmd) (args : List String) : Except String (List String) :=
  if !c.data.disableFlagParsing then parseFlags (effectiveFlags c) args
  else .ok args

/-- The validation step of `execute`: the target's `Args` validator,
when set, applied to the leftover tokens. -/
def validateArgs (cmd : Cmd) (flags : List String) : Option String :=
  match cmd.data.argsv with
  | some v => runArgs v cmd flags
  | none => none

/-- The lifecycle pipeline of `execute` (its tail, after parsing,
resolution and validation): the five stages in order on the target
`cmd`, each failure returning immediately; a `Run`-stage failure
additionally writes the error text to the receiver `c`'s error stream
unless `c.SilenceErrors`, and `c`'s usage text to `c`'s output stream
unless `c.SilenceUsage`, before returning the error. -/
def executeStages (c cmd : Cmd) (flags : List String) : Option String × List Ev :=
  match executePersistentPreRun cmd flags with
  | (some e, v1) => (some e, v1)
  | (none, v1) =>
    match executePreRun cmd flags with
    | (some e, v2) => (some e, v1 ++ v2)
    | (none, v2) =>
      match executeRun cmd flags with
      | (some e, v3) =>
        let wErr := if !c.data.silenceErrors then [Ev.errWrite c.errOrStderr e] else []
        let wUse := if !c.data.silenceUsage then (usage c).2 else []
        (some e, v1 ++ v2 ++ v3 ++ wErr ++ wUse)
      | (none, v3) =>
        match executePostRun cmd flags with
        | (some e, v4) => (some e, v1 ++ v2 ++ v3 ++ v4)
        | (none, v4) =>
          match executePersistentPostRun cmd flags with
          | (some e, v5) => (some e, v1 ++ v2 ++ v3 ++ v4 ++ v5)
          | (none, v5) => (none, v1 ++ v2 ++ v3 ++ v4 ++ v5)

/-- `execute(args)`: parse flags (unless disabled), resolve the target
with `Find` (whose error result is always nil), validate positionals,
then run the lifecycle pipeline. The result is the returned error (if
any) paired with the event trace. -/
def execute (c : Cmd) (args : List String) : Option String × List Ev :=
  match parsePhase c args with
  | .error e => (some e, [])
  | .ok args1 =>
    let fr := find c args1
    match validateArgs fr.1 fr.2 with
    | some e => (some e, [])
    | none => executeStages c fr.1 fr.2

/-- No write event (error text or usage text) occurs in the trace. -/
def noWrites (t : List Ev) : Prop :=
  ∀ st m, Ev.errWrite st m ∉ t ∧ Ev.usageWrite st m ∉ t

/-!
Concrete commands and flags used by witnesses and counterexamples.
-/

/-- A child named `greet` (from `Use = "greet hello"`) with alias `g`. -/
def greetCmd : Cmd := .mk { use := "greet hello", aliases := ["g"] } []

/-- A second child, named `other`. -/
def otherCmd : Cmd := .mk { use := "other" } []

/-- A root with children `greet` and `other`, in that order. -/
def sampleRoot : Cmd := .mk { use := "root" } [greetCmd, otherCmd]

/-- A root whose PersistentPreRunE fails. -/
def cPPreFail : Cmd :=
  .mk { use := "ppre", disableFlagParsing := true,
        persistentPreRunE := some (fun _ => some "ppre boom"),
        runE := some (fun _ => none) } []

/-- A root whose PreRunE fails after a succeeding PersistentPreRunE. -/
def cPreFail : Cmd :=
  .mk { use := "pre", disableFlagParsing := true,
        persistentPreRunE := some (fun _ => none),
        preRunE := some (fun _ => some "pre boom"),
        runE := some (fun _ => none) } []

/-- A root whose RunE fails after succeeding pre stages, with post
stages present (which must not run). -/
def cRunFail : Cmd :=
  .mk { use := "runfail", disableFlagParsing := true,
        persistentPreRunE := some (fun _ => none),
        preRunE := some (fun _ => none),
        runE := some (fun _ => some "run boom"),
        postRunE := some (fun _ => none),
        persistentPostRunE := some (fun _ => none) } []

/-- A target with `SilenceErrors` set whose RunE fails. -/
def subSilenced : Cmd :=
  .mk { use := "sub", silenceErrors := true,
        runE := some (fun _ => some "boom") } []

/-- A root without `SilenceErrors` whose resolved target is the
silenced child. -/
def rootLoud : Cmd := .mk { use := "root", disableFlagParsing := true } [subSilenced]

/-- A persistent flag of the parent. -/
def parentVerbose : Flag :=
  { name := "verbose", shorthand := "", usage := "parent verbose",
    defValue := "false", isBool := true }

/-- The child's own flag of the same name (a distinct descriptor). -/
def childVerbose : Flag :=
  { name := "verbose", shorthand := "", usage := "child verbose",
    defValue := "false", isBool := true }

/-- A child that registers `verbose` only in its local scope. -/
def childScopes : CmdData := { use := "sub", lflags := [childVerbose] }

/-- A flag registered directly in a node's full (effective) set. -/
def ownFlag : Flag :=
  { name := "own", shorthand := "", usage := "registered on the full set",
    defValue := "", isBool := true }

/-- A root with flag parsing disabled and a `NoArgs` validator. -/
def noArgsNoParse : Cmd :=
  .mk { use := "root", disableFlagParsing := true, argsv := some .noArgs } []

/-- A root with flag parsing enabled and no flags registered. -/
def plainRoot : Cmd := .mk { use := "plain" } []

/-- A root with neither `Run` nor `RunE`, but with post stages set. -/
def cNoRun : Cmd :=
  .mk { use := "norun", disableFlagParsing := true,
        postRunE := some (fun _ => none),
        persistentPostRunE := some (fun _ => none) } []

end Mamba

namespace Mamba.Forest

/-!
Pointer-identity model of the tree-mutation API (`AddCommand` /
`RemoveCommand`). Nodes live in a store indexed by number (the
identity Go compares with `==` on pointers); each carries its ordered
child list (as node numbers) and its parent back-reference.
-/

/-- One stored node: child list and parent back-reference. -/
structure Node where
  children : List Nat := []
  parent : Option Nat := none
deriving DecidableEq, Repr

/-- The node store; a node's number is its index. -/
abbrev Store := List Node

/-- Node access (out-of-range numbers read as a fresh empty node). -/
def getNode (s : Store) (i : Nat) : Node :=
  s.getD i {}

/-- Overwrite node `i`'s parent back-reference. -/
def setParent (s : Store) (i : Nat) (p : Option Nat) : Store :=
  s.set i { getNode s i with parent := p }

/-- Append `x` to node `c`'s child list. -/
def appendChild (s : Store) (c x : Nat) : Store :=
  s.set c { getNode s c with children := (getNode s c).children ++ [x] }

/-- `AddCommand(cmds...)` on node `c`: for each argument in order, a
fatal panic when it is `c` itself (`command` must not `be a child of
itself`), otherwise its parent is set to `c` and it is appended to
`c`'s child list. The Boolean reports whether the call panicked; the
store holds the mutations applied before the panic. -/
def addCommand (s : Store) (c : Nat) : List Nat → Store × Bool
  | [] => (s, false)
  | cmd :: rest =>
    if cmd = c then (s, true)
    else addCommand (appendChild (setParent s cmd (some c)) c cmd) c rest

/-- The parent-clearing part of the `RemoveCommand` loop: walking the
old child list, each child matching one of `cmds` gets its parent
back-reference set to nil. -/
def clearParents (cmds : List Nat) (s : Store) : List Nat → Store
  | [] => s
  | child :: rest =>
    clearParents cmds (if cmds.contains child then setParent s child none else s) rest

/-- `RemoveCommand(cmds...)` on node `c`. The Go loop walks `c`'s
child list once, clearing the back-reference of each child matching
one of `cmds` and collecting the non-matching ones as the new child
list; matching is by identity and unaffected by the parent writes, so
the loop is the parent-clearing pass followed by the filtered list. -/
def removeCommand (s : Store) (c : Nat) (cmds : List Nat) : Store :=
  let old := (getNode s c).children
  let s1 := clearParents cmds s old
  s1.set c { getNode s1 c with children := old.filter (fun child => !cmds.contains child) }

/-- The single-parent ownership invariant: every child list is
duplicate-free, and every child is a valid node whose parent
back-reference points to the node listing it (hence a node appears in
at most one child list). -/
def WF (s : Store) : Prop :=
  ∀ j < s.length, (getNode s j).children.Nodup ∧
    ∀ x ∈ (getNode s j).children, x < s.length ∧ (getNode s x).parent = some j

instance : DecidablePred WF := by
  unfold WF
  infer_instance

/-- A store of two detached nodes. -/
def twoNodes : Store := [{}, {}]

/-- A store of three detached nodes. -/
def threeNodes : Store := [{}, {}, {}]

/-- Node 2 added to node 0, then to node 1, without being removed in
between. -/
def doubleAdd : Store := (addCommand (addCommand threeNodes 0 [2]).1 1 [2]).1

end Mamba.Forest

namespace Mamba

lemma addAbsent_nil (fs : List Flag) : addAbsent fs [] = fs := rfl

lemma addAbsent_cons (fs : List Flag) (x : Flag) (rest : List Flag) :
    addAbsent fs (x :: rest) =
      addAbsent (if lookupFlag fs x.name = none then addFlag fs x else fs) rest := rfl

lemma lookupFlag_cons (x : Flag) (rest : List Flag) (name : String) :
    lookupFlag (x :: rest) name = if x.name == name then some x else lookupFlag rest name := by
  unfold lookupFlag
  cases h : x.name == name <;> simp [List.find?_cons, h]

lemma lookupFlag_addFlag (fs : List Flag) (f : Flag) (name : String) :
    lookupFlag (addFlag fs f) name =
      (lookupFlag fs name).or (if f.name == name then some f else none) := by
  unfold lookupFlag addFlag
  rw [List.find?_append]
  cases h : f.name == name <;> simp [List.find?_cons, h]

lemma lookupFlag_addAbsent_of_some (fs new : List Flag) (name : String) (f : Flag)
    (h : lookupFlag fs name = some f) :
    lookupFlag (addAbsent fs new) name = some f := by
  induction new generalizing fs with
  | nil => simpa [addAbsent_nil] using h
  | cons x rest ih =>
    rw [addAbsent_cons]
    apply ih
    by_cases hx : lookupFlag fs x.name = none
    · rw [if_pos hx, lookupFlag_addFlag, h]
      rfl
    · rw [if_neg hx]
      exact h

lemma lookupFlag_addAbsent_of_none (fs new : List Flag) (name : String) (g : Flag)
    (hfs : lookupFlag fs name = none) (hnew : lookupFlag new name = some g) :
    lookupFlag (addAbsent fs new) name = some g := by
  induction new generalizing fs with
  | nil => simp [lookupFlag, List.find?] at hnew
  | cons x rest ih =>
    rw [addAbsent_cons]
    rw [lookupFlag_cons] at hnew
    by_cases hxn : (x.name == name) = true
    · rw [if_pos hxn] at hnew
      have hxg : x = g := by injection hnew
      subst hxg
      have hname : x.name = name := by simpa using hxn
      have hfsx : lookupFlag fs x.name = none := by rw [hname]; exact hfs
      rw [if_pos hfsx]
      apply lookupFlag_addAbsent_of_some
      rw [lookupFlag_addFlag, hfs, if_pos hxn]
      rfl
    · rw [if_neg hxn] at hnew
      have hacc : lookupFlag (if lookupFlag fs x.name = none then addFlag fs x else fs) name = none := by
        by_cases hx : lookupFlag fs x.name = none
        · rw [if_pos hx, lookupFlag_addFlag, hfs, if_neg hxn]
          rfl
        · rw [if_neg hx]; exact hfs
      exact ih _ hacc hnew

lemma mergePersistentFlags_flags (pf : List Flag) (c : CmdData) :
    (mergePersistentFlags pf c).flags =
      addAbsent (addAbsent (addAbsent c.flags pf) c.pflags) c.lflags := rfl

/-- C3 counterexample: the child registers its own `verbose` flag in
its local scope; the parent has a persistent `verbose` flag. After the
merge, `Flags().Lookup("verbose")` on the child returns the parent's
descriptor, not the child's own, contradicting the claim. -/
theorem C3_counterexample :
    childScopes.lflags = [childVerbose] ∧
    lookupFlag (mergePersistentFlags [parentVerbose] childScopes).flags "verbose" =
      some parentVerbose ∧
    parentVerbose ≠ childVerbose := by
  exact ⟨rfl, rfl, by decide⟩

/-- C3 amended: merging never overwrites a name already present in the
effective set (first-registered-wins), and the merge adds the parent's
persistent flags before the node's own persistent and local scopes, so
for a name not already in the node's full set an inherited persistent
flag wins over the node's own scoped flags of the same name; only a
flag already registered directly in the node's full set shadows the
inherited one. -/
theorem C3_closest_scope_amended (pf : List Flag) (c : CmdData) (name : String) :
    (∀ f, lookupFlag c.flags name = some f →
      lookupFlag (mergePersistentFlags pf c).flags name = some f) ∧
    (lookupFlag c.flags name = none → ∀ g, lookupFlag pf name = some g →
      lookupFlag (mergePersistentFlags pf c).flags name = some g) := by
  constructor
  · intro f h
    rw [mergePersistentFlags_flags]
    exact lookupFlag_addAbsent_of_some _ _ _ _
      (lookupFlag_addAbsent_of_some _ _ _ _ (lookupFlag_addAbsent_of_some _ _ _ _ h))
  · intro h g hg
    rw [mergePersistentFlags_flags]
    exact lookupFlag_addAbsent_of_some _ _ _ _
      (lookupFlag_addAbsent_of_some _ _ _ _ (lookupFlag_addAbsent_of_none _ _ _ _ h hg))

/-- Witness for the amended C3: a flag registered directly in the full
set survives the merge, and the parent's persistent `verbose` is what
lookup returns on a child that has `verbose` only in its local scope. -/
theorem C3_closest_scope_amended_witness :
    lookupFlag (mergePersistentFlags [parentVerbose] { use := "s", flags := [ownFlag] }).flags
      "own" = some ownFlag ∧
    lookupFlag (mergePersistentFlags [parentVerbose] childScopes).flags "verbose" =
      some parentVerbose := by
  constructor
  · exact (C3_closest_scope_amended [parentVerbose] { use := "s", flags := [ownFlag] } "own").1
      ownFlag (by rfl)
  · exact (C3_closest_scope_amended [parentVerbose] childScopes "verbose").2
      (by rfl) parentVerbose (by rfl)

/-- C5: the resolver contract: `Find([])` returns the node itself with
empty remainder; with a non-empty token list, the first child (in
registration order) whose primary name or alias equals the head token
is recursed into with the tail; with no matching child the node itself
is the target and the whole token list is the remainder, with no
backtracking. -/
theorem C5_find_contract :
    (∀ c : Cmd, find c [] = (c, [])) ∧
    (∀ (c ch : Cmd) (t : String) (rest : List String),
      c.commands.find? (fun k => k.name == t || k.hasAlias t) = some ch →
      find c (t :: rest) = find ch rest) ∧
    (∀ (c : Cmd) (t : String) (rest : List String),
      c.commands.find? (fun k => k.name == t || k.hasAlias t) = none →
      find c (t :: rest) = (c, t :: rest)) := by
  refine ⟨fun c => ?_, fun c ch t rest h => ?_, fun c t rest h => ?_⟩
  · simp [find]
  · simp [find, h]
  · simp [find, h]

/-- Witness for C5 on the sample tree: name match, alias match, and a
non-matching token left as remainder. -/
theorem C5_find_contract_witness :
    find sampleRoot ["greet", "x"] = (greetCmd, ["x"]) ∧
    find sampleRoot ["g"] = (greetCmd, []) ∧
    find sampleRoot ["nope"] = (sampleRoot, ["nope"]) := by
  obtain ⟨h0, h1, h2⟩ := C5_find_contract
  refine ⟨?_, ?_, ?_⟩
  · rw [h1 sampleRoot greetCmd "greet" ["x"] (by rfl)]
    exact h2 greetCmd "x" [] (by rfl)
  · rw [h1 sampleRoot greetCmd "g" [] (by rfl)]
    exact h0 greetCmd
  · exact h2 sampleRoot "nope" [] (by rfl)

/-- C6: the built-in validators accept/reject exactly by the stated
count conditions (`ExactArgs`, `MinimumNArgs`, `MaximumNArgs`,
`RangeArgs`, `NoArgs`, `ArbitraryArgs`); being pure functions of the
node and the argument list in this embedding, they mutate neither. -/
theorem C6_builtin_validators (c : Cmd) (args : List String) (n mn mx : Int) :
    ((NoArgs c args).isSome ↔ 0 < args.length) ∧
    ArbitraryArgs c args = none ∧
    ((MinimumNArgs n c args).isSome ↔ (args.length : Int) < n) ∧
    ((MaximumNArgs n c args).isSome ↔ n < (args.length : Int)) ∧
    ((ExactArgs n c args).isSome ↔ (args.length : Int) ≠ n) ∧
    ((RangeArgs mn mx c args).isSome ↔
      ((args.length : Int) < mn ∨ mx < (args.length : Int))) := by
  refine ⟨?_, rfl, ?_, ?_, ?_, ?_⟩
  · cases args <;> simp [NoArgs]
  · unfold MinimumNArgs
    split <;> simp_all
  · unfold MaximumNArgs
    split <;> simp_all
  · unfold ExactArgs
    split <;> simp_all
  · unfold RangeArgs
    split <;> simp_all

end Mamba

namespace Mamba.Forest

lemma length_setParent (s : Store) (i : Nat) (p : Option Nat) :
    (setParent s i p).length = s.length := by
  simp [setParent]

lemma length_appendChild (s : Store) (c x : Nat) :
    (appendChild s c x).length = s.length := by
  simp [appendChild]

lemma getNode_out (s : Store) (i : Nat) (h : s.length ≤ i) : getNode s i = {} := by
  unfold getNode
  rw [List.getD_eq_getElem?_getD, List.getElem?_eq_none h]
  rfl

lemma getNode_set (s : Store) (i : Nat) (v : Node) (j : Nat) :
    getNode (s.set i v) j = if j = i ∧ i < s.length then v else getNode s j := by
  unfold getNode
  rw [List.getD_eq_getElem?_getD, List.getD_eq_getElem?_getD, List.getElem?_set]
  by_cases h1 : i = j
  · subst h1
    by_cases h2 : i < s.length
    · simp [h2]
    · rw [if_pos rfl, if_neg h2, if_neg (fun hh : i = i ∧ i < s.length => h2 hh.2)]
      rw [List.getElem?_eq_none (by omega)]
  · rw [if_neg h1, if_neg (fun hh : j = i ∧ i < s.length => h1 hh.1.symm)]

lemma getNode_setParent (s : Store) (i : Nat) (p : Option Nat) (j : Nat) :
    getNode (setParent s i p) j =
      if j = i ∧ i < s.length then { getNode s i with parent := p } else getNode s j := by
  unfold setParent
  exact getNode_set ..

lemma getNode_appendChild (s : Store) (c x : Nat) (j : Nat) :
    getNode (appendChild s c x) j =
      if j = c ∧ c < s.length then
        { getNode s c with children := (getNode s c).children ++ [x] }
      else getNode s j := by
  unfold appendChild
  exact getNode_set ..

lemma children_setParent (s : Store) (i : Nat) (p : Option Nat) (j : Nat) :
    (getNode (setParent s i p) j).children = (getNode s j).children := by
  by_cases h : j = i ∧ i < s.length
  · rw [getNode_setParent, if_pos h]
    obtain ⟨h1, _⟩ := h
    subst h1
    rfl
  · rw [getNode_setParent, if_neg h]

lemma parent_setParent_self (s : Store) (i : Nat) (p : Option Nat) (h : i < s.length) :
    (getNode (setParent s i p) i).parent = p := by
  rw [getNode_setParent, if_pos ⟨rfl, h⟩]

lemma parent_setParent_ne (s : Store) (i : Nat) (p : Option Nat) (j : Nat)
    (h : ¬(j = i ∧ i < s.length)) :
    (getNode (setParent s i p) j).parent = (getNode s j).parent := by
  rw [getNode_setParent, if_neg h]

lemma length_clearParents (cmds : List Nat) (s : Store) (old : List Nat) :
    (clearParents cmds s old).length = s.length := by
  induction old generalizing s with
  | nil => rfl
  | cons a rest ih =>
    show (clearParents cmds (if cmds.contains a then setParent s a none else s) rest).length
      = s.length
    rw [ih]
    split <;> simp [length_setParent]

lemma children_clearParents (cmds : List Nat) (s : Store) (old : List Nat) (j : Nat) :
    (getNode (clearParents cmds s old) j).children = (getNode s j).children := by
  induction old generalizing s with
  | nil => rfl
  | cons a rest ih =>
    show (getNode (clearParents cmds (if cmds.contains a then setParent s a none else s) rest)
        j).children = (getNode s j).children
    rw [ih]
    split
    · rw [children_setParent]
    · rfl

lemma parent_clearParents_not_mem (cmds : List Nat) (s : Store) (old : List Nat) (y : Nat)
    (hy : y ∉ old) :
    (getNode (clearParents cmds s old) y).parent = (getNode s y).parent := by
  induction old generalizing s with
  | nil => rfl
  | cons a rest ih =>
    have hya : y ≠ a := fun h => hy (h ▸ List.mem_cons_self a rest)
    have hyr : y ∉ rest := fun h => hy (List.mem_cons_of_mem a h)
    show (getNode (clearParents cmds (if cmds.contains a then setParent s a none else s) rest)
        y).parent = (getNode s y).parent
    rw [ih _ hyr]
    split
    · rw [parent_setParent_ne]
      rintro ⟨h1, _⟩
      exact hya h1
    · rfl

lemma parent_clearParents_not_matched (cmds : List Nat) (s : Store) (old : List Nat) (y : Nat)
    (hy : cmds.contains y = false) :
    (getNode (clearParents cmds s old) y).parent = (getNode s y).parent := by
  induction old generalizing s with
  | nil => rfl
  | cons a rest ih =>
    show (getNode (clearParents cmds (if cmds.contains a then setParent s a none else s) rest)
        y).parent = (getNode s y).parent
    rw [ih]
    by_cases hca : cmds.contains a = true
    · rw [if_pos hca, parent_setParent_ne]
      rintro ⟨h1, _⟩
      rw [h1, hca] at hy
      cases hy
    · rw [if_neg (by simp [hca] at hca ⊢; exact hca)]

lemma parent_clearParents_cleared (cmds : List Nat) (s : Store) (old : List Nat) (y : Nat)
    (hy : y ∈ old) (hc : cmds.contains y = true) (hlen : y < s.length) :
    (getNode (clearParents cmds s old) y).parent = none := by
  induction old generalizing s with
  | nil => cases hy
  | cons a rest ih =>
    show (getNode (clearParents cmds (if cmds.contains a then setParent s a none else s) rest)
        y).parent = none
    have hlen' : (if cmds.contains a then setParent s a none else s).length = s.length := by
      split <;> simp [length_setParent]
    by_cases hyr : y ∈ rest
    · exact ih _ hyr (by rw [hlen']; exact hlen)
    · have hya : y = a := by
        rcases List.mem_cons.mp hy with h | h
        · exact h
        · exact absurd h hyr
      rw [parent_clearParents_not_mem _ _ _ _ hyr]
      rw [if_pos (hya ▸ hc)]
      rw [hya, parent_setParent_self _ _ _ (hya ▸ hlen)]

lemma length_removeCommand (s : Store) (c : Nat) (cmds : List Nat) :
    (removeCommand s c cmds).length = s.length := by
  show ((clearParents cmds s (getNode s c).children).set c _).length = s.length
  rw [List.length_set, length_clearParents]

lemma parent_removeCommand (s : Store) (c : Nat) (cmds : List Nat) (y : Nat) :
    (getNode (removeCommand s c cmds) y).parent =
      (getNode (clearParents cmds s (getNode s c).children) y).parent := by
  show (getNode ((clearParents cmds s (getNode s c).children).set c
      { getNode (clearParents cmds s (getNode s c).children) c with
        children := (getNode s c).children.filter (fun child => !cmds.contains child) })
      y).parent = _
  rw [getNode_set]
  split
  · rename_i h
    obtain ⟨h1, _⟩ := h
    subst h1
    rfl
  · rfl

lemma children_removeCommand_self (s : Store) (c : Nat) (cmds : List Nat) (hc : c < s.length) :
    (getNode (removeCommand s c cmds) c).children =
      (getNode s c).children.filter (fun child => !cmds.contains child) := by
  show (getNode ((clearParents cmds s (getNode s c).children).set c
      { getNode (clearParents cmds s (getNode s c).children) c with
        children := (getNode s c).children.filter (fun child => !cmds.contains child) })
      c).children = _
  rw [getNode_set, if_pos ⟨rfl, by rw [length_clearParents]; exact hc⟩]

lemma children_removeCommand_other (s : Store) (c : Nat) (cmds : List Nat) (j : Nat)
    (hj : j ≠ c) :
    (getNode (removeCommand s c cmds) j).children = (getNode s j).children := by
  show (getNode ((clearParents cmds s (getNode s c).children).set c
      { getNode (clearParents cmds s (getNode s c).children) c with
        children := (getNode s c).children.filter (fun child => !cmds.contains child) })
      j).children = _
  rw [getNode_set, if_neg (fun hh => hj hh.1), children_clearParents]

/-- C8: `AddCommand` with the receiver itself among the arguments
panics (modelled by the `true` flag) instead of adding the node or
returning a recoverable error; the mutations applied before the panic
append only the arguments preceding the receiver, so the receiver is
never appended to its own child list. -/
theorem C8_addCommand_self_panics (s : Store) (c : Nat) (cmds : List Nat)
    (hc : c < s.length) (hmem : c ∈ cmds) :
    (addCommand s c cmds).2 = true ∧
    (getNode (addCommand s c cmds).1 c).children =
      (getNode s c).children ++ cmds.takeWhile (fun y => y != c) ∧
    (c ∉ (getNode s c).children → c ∉ (getNode (addCommand s c cmds).1 c).children) := by
  have main : (addCommand s c cmds).2 = true ∧
      (getNode (addCommand s c cmds).1 c).children =
        (getNode s c).children ++ cmds.takeWhile (fun y => y != c) := by
    induction cmds generalizing s with
    | nil => cases hmem
    | cons a rest ih =>
      by_cases ha : a = c
      · subst ha
        simp [addCommand]
      · have hmem' : c ∈ rest := by
          rcases List.mem_cons.mp hmem with h | h
          · exact absurd h.symm ha
          · exact h
        have hstep : addCommand s c (a :: rest) =
            addCommand (appendChild (setParent s a (some c)) c a) c rest := by
          simp [addCommand, ha]
        have hlen1 : (appendChild (setParent s a (some c)) c a).length = s.length := by
          rw [length_appendChild, length_setParent]
        have hch1 : (getNode (appendChild (setParent s a (some c)) c a) c).children =
            (getNode s c).children ++ [a] := by
          rw [getNode_appendChild, if_pos ⟨rfl, by rw [length_setParent]; exact hc⟩]
          show (getNode (setParent s a (some c)) c).children ++ [a] = _
          rw [children_setParent]
        obtain ⟨h1, h2⟩ := ih _ (by rw [hlen1]; exact hc) hmem'
        rw [hstep]
        refine ⟨h1, ?_⟩
        rw [h2, hch1]
        have hpa : (a != c) = true := by simpa using ha
        rw [List.takeWhile_cons, if_pos hpa, List.append_assoc]
        rfl
  refine ⟨main.1, main.2, fun hnot hmem2 => ?_⟩
  rw [main.2] at hmem2
  rcases List.mem_append.mp hmem2 with h | h
  · exact hnot h
  · have := List.mem_takeWhile_imp h
    simp at this

/-- Witness for C8: on a two-node store, `AddCommand 0 [1, 0]` panics
after appending node 1 but never appends node 0 to itself. -/
theorem C8_addCommand_self_panics_witness :
    (addCommand twoNodes 0 [1, 0]).2 = true ∧
    (getNode (addCommand twoNodes 0 [1, 0]).1 0).children = [1] ∧
    0 ∉ (getNode (addCommand twoNodes 0 [1, 0]).1 0).children := by
  have h := C8_addCommand_self_panics twoNodes 0 [1, 0] (by decide) (by decide)
  refine ⟨h.1, ?_, h.2.2 (by decide)⟩
  rw [h.2.1]
  decide

/-- C9 counterexample: adding node 2 to node 0 and then to node 1
(without removing it in between) leaves node 2 in two child lists with
its back-reference pointing only at node 1 — the single-parent
invariant is violated by a sequence of `AddCommand` operations. -/
theorem C9_counterexample :
    2 ∈ (getNode doubleAdd 0).children ∧
    2 ∈ (getNode doubleAdd 1).children ∧
    (getNode doubleAdd 2).parent = some 1 ∧
    ¬ WF doubleAdd := by
  decide

/-- C9 amended: `AddCommand` sets the back-reference and appends to
the new parent's child list, and `RemoveCommand` detaches matching
children and clears their back-references; the single-parent invariant
is preserved by `RemoveCommand` unconditionally, and by `AddCommand`
provided the added node is currently detached (no parent, member of no
child list) — `AddCommand` does not detach a node from a previous
parent, so re-adding an attached node violates the invariant. -/
theorem C9_single_parent_amended (s : Store) (c x : Nat) (cmds : List Nat) (hwf : WF s) :
    (c < s.length → x < s.length → x ≠ c →
      (getNode s x).parent = none →
      (∀ j < s.length, x ∉ (getNode s j).children) →
      WF (addCommand s c [x]).1 ∧
      (addCommand s c [x]).2 = false ∧
      (getNode (addCommand s c [x]).1 c).children = (getNode s c).children ++ [x] ∧
      (getNode (addCommand s c [x]).1 x).parent = some c) ∧
    (WF (removeCommand s c cmds) ∧
      ∀ y ∈ (getNode s c).children, y ∈ cmds →
        (getNode (removeCommand s c cmds) y).parent = none ∧
        y ∉ (getNode (removeCommand s c cmds) c).children) := by
  constructor
  · intro hc hx hxc hdet hfree
    have hone : addCommand s c [x] = (appendChild (setParent s x (some c)) c x, false) := by
      simp [addCommand, hxc]
    rw [hone]
    have hlen1 : (appendChild (setParent s x (some c)) c x).length = s.length := by
      rw [length_appendChild, length_setParent]
    have hnc : getNode (appendChild (setParent s x (some c)) c x) c =
        { getNode s c with children := (getNode s c).children ++ [x] } := by
      rw [getNode_appendChild, if_pos ⟨rfl, by rw [length_setParent]; exact hc⟩]
      rw [getNode_setParent, if_neg (fun hh => hxc hh.1.symm)]
    have hnx : getNode (appendChild (setParent s x (some c)) c x) x =
        { getNode s x with parent := some c } := by
      rw [getNode_appendChild, if_neg (fun hh => hxc hh.1), getNode_setParent,
        if_pos ⟨rfl, hx⟩]
    have hnother : ∀ j, j ≠ c → j ≠ x →
        getNode (appendChild (setParent s x (some c)) c x) j = getNode s j := by
      intro j hjc hjx
      rw [getNode_appendChild, if_neg (fun hh => hjc hh.1), getNode_setParent,
        if_neg (fun hh => hjx hh.1)]
    have hpar : ∀ y, y ≠ x →
        (getNode (appendChild (setParent s x (some c)) c x) y).parent =
          (getNode s y).parent := by
      intro y hy
      by_cases hyc : y = c
      · subst hyc
        rw [hnc]
      · rw [hnother y hyc hy]
    refine ⟨?_, rfl, by rw [hnc], by rw [hnx]⟩
    intro j hj
    rw [hlen1] at hj
    by_cases hjc : j = c
    · subst hjc
      rw [hnc]
      constructor
      · show ((getNode s j).children ++ [x]).Nodup
        rw [List.nodup_append]
        refine ⟨(hwf j hj).1, List.nodup_singleton x, ?_⟩
        intro a ha hax
        rw [List.mem_singleton] at hax
        subst hax
        exact hfree j hj ha
      · show ∀ y ∈ (getNode s j).children ++ [x], _
        intro y hy
        rcases List.mem_append.mp hy with h | h
        · obtain ⟨hylen, hypar⟩ := (hwf j hj).2 y h
          have hyx : y ≠ x := fun hh => hfree j hj (hh ▸ h)
          rw [hlen1, hpar y hyx]
          exact ⟨hylen, hypar⟩
        · rw [List.mem_singleton] at h
          subst h
          rw [hlen1, hnx]
          exact ⟨hx, rfl⟩
    · constructor
      · have hch : (getNode (appendChild (setParent s x (some c)) c x) j).children =
            (getNode s j).children := by
          by_cases hjx : j = x
          · subst hjx
            rw [hnx]
          · rw [hnother j hjc hjx]
        rw [hch]
        exact (hwf j hj).1
      · intro y hy
        have hch : (getNode (appendChild (setParent s x (some c)) c x) j).children =
            (getNode s j).children := by
          by_cases hjx : j = x
          · subst hjx
            rw [hnx]
          · rw [hnother j hjc hjx]
        rw [hch] at hy
        obtain ⟨hylen, hypar⟩ := (hwf j hj).2 y hy
        have hyx : y ≠ x := fun hh => hfree j hj (hh ▸ hy)
        rw [hlen1, hpar y hyx]
        exact ⟨hylen, hypar⟩
  · constructor
    · intro j hj
      rw [length_removeCommand] at hj
      by_cases hjc : j = c
      · subst hjc
        rw [children_removeCommand_self _ _ _ hj]
        constructor
        · exact ((hwf j hj).1).filter _
        · intro y hy
          rw [List.mem_filter] at hy
          obtain ⟨hyold, hymatch⟩ := hy
          obtain ⟨hylen, hypar⟩ := (hwf j hj).2 y hyold
          have hnm : cmds.contains y = false := by
            cases h : cmds.contains y
            · rfl
            · rw [h] at hymatch
              cases hymatch
          rw [length_removeCommand, parent_removeCommand,
            parent_clearParents_not_matched _ _ _ _ hnm]
          exact ⟨hylen, hypar⟩
      · rw [children_removeCommand_other _ _ _ _ hjc]
        refine ⟨(hwf j hj).1, ?_⟩
        intro y hy
        obtain ⟨hylen, hypar⟩ := (hwf j hj).2 y hy
        have hyold : y ∉ (getNode s c).children := by
          intro hmem
          by_cases hclen : c < s.length
          · obtain ⟨_, hypar2⟩ := (hwf c hclen).2 y hmem
            rw [hypar] at hypar2
            exact hjc (Option.some_injective _ hypar2)
          · rw [getNode_out s c (by omega)] at hmem
            cases hmem
        rw [length_removeCommand, parent_removeCommand,
          parent_clearParents_not_mem _ _ _ _ hyold]
        exact ⟨hylen, hypar⟩
    · intro y hyold hycmds
      have hclen : c < s.length := by
        by_contra hcl
        rw [getNode_out s c (by omega)] at hyold
        cases hyold
      obtain ⟨hylen, _⟩ := (hwf c hclen).2 y hyold
      have hcont : cmds.contains y = true := List.elem_iff.mpr hycmds
      constructor
      · rw [parent_removeCommand]
        exact parent_clearParents_cleared _ _ _ _ hyold hcont hylen
      · rw [children_removeCommand_self _ _ _ hclen]
        intro hmem
        rw [List.mem_filter] at hmem
        rw [hcont] at hmem
        rcases hmem with ⟨_, hfalse⟩
        cases hfalse

/-- Witness for the amended C9: adding detached node 1 under node 0
preserves the invariant and sets the back-reference; removing it
preserves the invariant too. -/
theorem C9_single_parent_amended_witness :
    WF (addCommand twoNodes 0 [1]).1 ∧
    (getNode (addCommand twoNodes 0 [1]).1 1).parent = some 0 ∧
    WF (removeCommand twoNodes 0 [1]) := by
  have h1 := (C9_single_parent_amended twoNodes 0 1 [1] (by decide)).1
    (by decide) (by decide) (by decide) (by decide) (by decide)
  have h2 := (C9_single_parent_amended twoNodes 0 1 [1] (by decide)).2
  exact ⟨h1.1, h1.2.2.2, h2.1⟩

end Mamba.Forest

namespace Mamba

lemma executePersistentPreRun_trace (c : Cmd) (a : List String) :
    (executePersistentPreRun c a).2 = [] ∨
      (executePersistentPreRun c a).2 = [Ev.stage .pPre] := by
  cases h : c.data.persistentPreRunE with
  | none =>
    simp only [executePersistentPreRun, h]
    split <;> simp
  | some f => simp [executePersistentPreRun, h]

lemma executePreRun_trace (c : Cmd) (a : List String) :
    (executePreRun c a).2 = [] ∨ (executePreRun c a).2 = [Ev.stage .pre] := by
  cases h : c.data.preRunE with
  | none =>
    simp only [executePreRun, h]
    split <;> simp
  | some f => simp [executePreRun, h]

lemma executeRun_trace (c : Cmd) (a : List String) :
    (executeRun c a).2 = [] ∨ (executeRun c a).2 = [Ev.stage .run] := by
  cases h : c.data.runE with
  | none =>
    simp only [executeRun, h]
    split <;> simp
  | some f => simp [executeRun, h]

lemma executePostRun_trace (c : Cmd) (a : List String) :
    (executePostRun c a).2 = [] ∨ (executePostRun c a).2 = [Ev.stage .post] := by
  cases h : c.data.postRunE with
  | none =>
    simp only [executePostRun, h]
    split <;> simp
  | some f => simp [executePostRun, h]

lemma executePersistentPostRun_trace (c : Cmd) (a : List String) :
    (executePersistentPostRun c a).2 = [] ∨
      (executePersistentPostRun c a).2 = [Ev.stage .pPost] := by
  cases h : c.data.persistentPostRunE with
  | none =>
    simp only [executePersistentPostRun, h]
    split <;> simp
  | some f => simp [executePersistentPostRun, h]

lemma executePersistentPreRun_invoked (c : Cmd) (a : List String)
    (h : c.data.persistentPreRunE.isSome = true ∨ c.data.persistentPreRun = true) :
    (executePersistentPreRun c a).2 = [Ev.stage .pPre] := by
  cases hE : c.data.persistentPreRunE with
  | some f => simp [executePersistentPreRun, hE]
  | none =>
    rcases h with h | h
    · rw [hE] at h
      simp at h
    · simp [executePersistentPreRun, hE, h]

lemma executePreRun_invoked (c : Cmd) (a : List String)
    (h : c.data.preRunE.isSome = true ∨ c.data.preRun = true) :
    (executePreRun c a).2 = [Ev.stage .pre] := by
  cases hE : c.data.preRunE with
  | some f => simp [executePreRun, hE]
  | none =>
    rcases h with h | h
    · rw [hE] at h
      simp at h
    · simp [executePreRun, hE, h]

lemma stage_not_mem_of_trace (st σ : Stage) (hne : st ≠ σ) (v : List Ev)
    (hv : v = [] ∨ v = [Ev.stage σ]) : Ev.stage st ∉ v := by
  rcases hv with h | h <;> subst h <;> simp [hne]

lemma write_not_mem_of_trace (v : List Ev) (σ : Stage)
    (hv : v = [] ∨ v = [Ev.stage σ]) (st : Nat) (m : String) :
    Ev.errWrite st m ∉ v ∧ Ev.usageWrite st m ∉ v := by
  rcases hv with h | h <;> subst h <;> simp

lemma stage_not_mem_wErr (st : Stage) (b : Bool) (n : Nat) (m : String) :
    Ev.stage st ∉ (if b then [Ev.errWrite n m] else []) := by
  split <;> simp

lemma stage_not_mem_wUse (st : Stage) (b : Bool) (n : Nat) (m : String) :
    Ev.stage st ∉ (if b then [Ev.usageWrite n m] else []) := by
  split <;> simp

lemma executeStages_pPreFail (c cmd : Cmd) (flags : List String) (e : String) (v1 : List Ev)
    (h1 : executePersistentPreRun cmd flags = (some e, v1)) :
    executeStages c cmd flags = (some e, v1) := by
  unfold executeStages
  rw [h1]

lemma executeStages_preFail (c cmd : Cmd) (flags : List String) (e : String)
    (v1 v2 : List Ev)
    (h1 : executePersistentPreRun cmd flags = (none, v1))
    (h2 : executePreRun cmd flags = (some e, v2)) :
    executeStages c cmd flags = (some e, v1 ++ v2) := by
  unfold executeStages
  rw [h1, h2]

lemma executeStages_runFail (c cmd : Cmd) (flags : List String) (e : String)
    (v1 v2 v3 : List Ev)
    (h1 : executePersistentPreRun cmd flags = (none, v1))
    (h2 : executePreRun cmd flags = (none, v2))
    (h3 : executeRun cmd flags = (some e, v3)) :
    executeStages c cmd flags =
      (some e, v1 ++ v2 ++ v3 ++
        (if !c.data.silenceErrors then [Ev.errWrite c.errOrStderr e] else []) ++
        (if !c.data.silenceUsage then [Ev.usageWrite c.outOrStdout c.name] else [])) := by
  unfold executeStages
  rw [h1, h2, h3]
  simp [usage]

lemma executeStages_postFail (c cmd : Cmd) (flags : List String) (e : String)
    (v1 v2 v3 v4 : List Ev)
    (h1 : executePersistentPreRun cmd flags = (none, v1))
    (h2 : executePreRun cmd flags = (none, v2))
    (h3 : executeRun cmd flags = (none, v3))
    (h4 : executePostRun cmd flags = (some e, v4)) :
    executeStages c cmd flags = (some e, v1 ++ v2 ++ v3 ++ v4) := by
  unfold executeStages
  rw [h1, h2, h3, h4]

lemma executeStages_pPostFail (c cmd : Cmd) (flags : List String) (e : String)
    (v1 v2 v3 v4 v5 : List Ev)
    (h1 : executePersistentPreRun cmd flags = (none, v1))
    (h2 : executePreRun cmd flags = (none, v2))
    (h3 : executeRun cmd flags = (none, v3))
    (h4 : executePostRun cmd flags = (none, v4))
    (h5 : executePersistentPostRun cmd flags = (some e, v5)) :
    executeStages c cmd flags = (some e, v1 ++ v2 ++ v3 ++ v4 ++ v5) := by
  unfold executeStages
  rw [h1, h2, h3, h4, h5]

lemma executeStages_ok (c cmd : Cmd) (flags : List String)
    (v1 v2 v3 v4 v5 : List Ev)
    (h1 : executePersistentPreRun cmd flags = (none, v1))
    (h2 : executePreRun cmd flags = (none, v2))
    (h3 : executeRun cmd flags = (none, v3))
    (h4 : executePostRun cmd flags = (none, v4))
    (h5 : executePersistentPostRun cmd flags = (none, v5)) :
    executeStages c cmd flags = (none, v1 ++ v2 ++ v3 ++ v4 ++ v5) := by
  unfold executeStages
  rw [h1, h2, h3, h4, h5]

lemma execute_parse_error (c : Cmd) (args : List String) (e : String)
    (h : parsePhase c args = .error e) :
    execute c args = (some e, []) := by
  unfold execute
  rw [h]

lemma execute_validate_error (c cmd : Cmd) (args args1 flags : List String) (e : String)
    (hp : parsePhase c args = .ok args1) (hf : find c args1 = (cmd, flags))
    (hv : validateArgs cmd flags = some e) :
    execute c args = (some e, []) := by
  simp [execute, hp, hf, hv]

lemma execute_eq_stages (c cmd : Cmd) (args args1 flags : List String)
    (hp : parsePhase c args = .ok args1) (hf : find c args1 = (cmd, flags))
    (hv : validateArgs cmd flags = none) :
    execute c args = executeStages c cmd flags := by
  simp [execute, hp, hf, hv]

/-- C1: lifecycle short-circuiting: a PersistentPreRun or PreRun stage
failure makes `execute` return that error with the Run, PostRun and
PersistentPostRun stages never invoked; a Run stage failure makes
`execute` return that error with PostRun and PersistentPostRun never
invoked while PersistentPreRun and PreRun (whenever a callback is set
for them) have already been invoked. -/
theorem C1_lifecycle_short_circuit (c cmd : Cmd) (args args1 flags : List String) (e : String)
    (hp : parsePhase c args = Except.ok args1)
    (hf : find c args1 = (cmd, flags))
    (hv : validateArgs cmd flags = none) :
    ((executePersistentPreRun cmd flags).1 = some e →
      (execute c args).1 = some e ∧
      Ev.stage .run ∉ (execute c args).2 ∧
      Ev.stage .post ∉ (execute c args).2 ∧
      Ev.stage .pPost ∉ (execute c args).2) ∧
    ((executePersistentPreRun cmd flags).1 = none →
      (executePreRun cmd flags).1 = some e →
      (execute c args).1 = some e ∧
      Ev.stage .run ∉ (execute c args).2 ∧
      Ev.stage .post ∉ (execute c args).2 ∧
      Ev.stage .pPost ∉ (execute c args).2) ∧
    ((executePersistentPreRun cmd flags).1 = none →
      (executePreRun cmd flags).1 = none →
      (executeRun cmd flags).1 = some e →
      (execute c args).1 = some e ∧
      Ev.stage .post ∉ (execute c args).2 ∧
      Ev.stage .pPost ∉ (execute c args).2 ∧
      (cmd.data.persistentPreRunE.isSome = true ∨ cmd.data.persistentPreRun = true →
        Ev.stage .pPre ∈ (execute c args).2) ∧
      (cmd.data.preRunE.isSome = true ∨ cmd.data.preRun = true →
        Ev.stage .pre ∈ (execute c args).2)) := by
  have hexec := execute_eq_stages c cmd args args1 flags hp hf hv
  refine ⟨?_, ?_, ?_⟩
  · intro h1
    rcases hq1 : executePersistentPreRun cmd flags with ⟨e1, v1⟩
    rw [hq1] at h1
    have h1' : e1 = some e := h1
    subst h1'
    have hs := executeStages_pPreFail c cmd flags e v1 hq1
    rw [hexec, hs]
    have hv1 := executePersistentPreRun_trace cmd flags
    rw [hq1] at hv1
    have hv1' : v1 = [] ∨ v1 = [Ev.stage .pPre] := hv1
    exact ⟨rfl, stage_not_mem_of_trace _ _ (by decide) v1 hv1',
      stage_not_mem_of_trace _ _ (by decide) v1 hv1',
      stage_not_mem_of_trace _ _ (by decide) v1 hv1'⟩
  · intro h1 h2
    rcases hq1 : executePersistentPreRun cmd flags with ⟨e1, v1⟩
    rcases hq2 : executePreRun cmd flags with ⟨e2, v2⟩
    rw [hq1] at h1
    rw [hq2] at h2
    have h1' : e1 = none := h1
    have h2' : e2 = some e := h2
    subst h1'
    subst h2'
    have hs := executeStages_preFail c cmd flags e v1 v2 hq1 hq2
    rw [hexec, hs]
    have hv1 := executePersistentPreRun_trace cmd flags
    rw [hq1] at hv1
    have hv1' : v1 = [] ∨ v1 = [Ev.stage .pPre] := hv1
    have hv2 := executePreRun_trace cmd flags
    rw [hq2] at hv2
    have hv2' : v2 = [] ∨ v2 = [Ev.stage .pre] := hv2
    have A1 := stage_not_mem_of_trace .run .pPre (by decide) v1 hv1'
    have A2 := stage_not_mem_of_trace .run .pre (by decide) v2 hv2'
    have B1 := stage_not_mem_of_trace .post .pPre (by decide) v1 hv1'
    have B2 := stage_not_mem_of_trace .post .pre (by decide) v2 hv2'
    have D1 := stage_not_mem_of_trace .pPost .pPre (by decide) v1 hv1'
    have D2 := stage_not_mem_of_trace .pPost .pre (by decide) v2 hv2'
    exact ⟨rfl, by simp [List.mem_append, A1, A2], by simp [List.mem_append, B1, B2],
      by simp [List.mem_append, D1, D2]⟩
  · intro h1 h2 h3
    rcases hq1 : executePersistentPreRun cmd flags with ⟨e1, v1⟩
    rcases hq2 : executePreRun cmd flags with ⟨e2, v2⟩
    rcases hq3 : executeRun cmd flags with ⟨e3, v3⟩
    rw [hq1] at h1
    rw [hq2] at h2
    rw [hq3] at h3
    have h1' : e1 = none := h1
    have h2' : e2 = none := h2
    have h3' : e3 = some e := h3
    subst h1'
    subst h2'
    subst h3'
    have hs := executeStages_runFail c cmd flags e v1 v2 v3 hq1 hq2 hq3
    rw [hexec, hs]
    have hv1 := executePersistentPreRun_trace cmd flags
    rw [hq1] at hv1
    have hv1' : v1 = [] ∨ v1 = [Ev.stage .pPre] := hv1
    have hv2 := executePreRun_trace cmd flags
    rw [hq2] at hv2
    have hv2' : v2 = [] ∨ v2 = [Ev.stage .pre] := hv2
    have hv3 := executeRun_trace cmd flags
    rw [hq3] at hv3
    have hv3' : v3 = [] ∨ v3 = [Ev.stage .run] := hv3
    refine ⟨rfl, ?_, ?_, ?_, ?_⟩
    · have B1 := stage_not_mem_of_trace .post .pPre (by decide) v1 hv1'
      have B2 := stage_not_mem_of_trace .post .pre (by decide) v2 hv2'
      have B3 := stage_not_mem_of_trace .post .run (by decide) v3 hv3'
      have B4 := stage_not_mem_wErr .post (!c.data.silenceErrors) c.errOrStderr e
      have B5 := stage_not_mem_wUse .post (!c.data.silenceUsage) c.outOrStdout c.name
      simp [List.mem_append, B1, B2, B3, B4, B5]
    · have B1 := stage_not_mem_of_trace .pPost .pPre (by decide) v1 hv1'
      have B2 := stage_not_mem_of_trace .pPost .pre (by decide) v2 hv2'
      have B3 := stage_not_mem_of_trace .pPost .run (by decide) v3 hv3'
      have B4 := stage_not_mem_wErr .pPost (!c.data.silenceErrors) c.errOrStderr e
      have B5 := stage_not_mem_wUse .pPost (!c.data.silenceUsage) c.outOrStdout c.name
      simp [List.mem_append, B1, B2, B3, B4, B5]
    · intro hset
      have hi := executePersistentPreRun_invoked cmd flags hset
      rw [hq1] at hi
      have hi' : v1 = [Ev.stage .pPre] := hi
      simp [List.mem_append, hi']
    · intro hset
      have hi := executePreRun_invoked cmd flags hset
      rw [hq2] at hi
      have hi' : v2 = [Ev.stage .pre] := hi
      simp [List.mem_append, hi']

/-- Witness for C1: three one-node trees failing at PersistentPreRun,
PreRun and Run respectively. -/
theorem C1_lifecycle_short_circuit_witness :
    (execute cPPreFail []).1 = some "ppre boom" ∧
    Ev.stage .run ∉ (execute cPPreFail []).2 ∧
    (execute cPreFail []).1 = some "pre boom" ∧
    Ev.stage .run ∉ (execute cPreFail []).2 ∧
    (execute cRunFail []).1 = some "run boom" ∧
    Ev.stage .post ∉ (execute cRunFail []).2 ∧
    Ev.stage .pPre ∈ (execute cRunFail []).2 ∧
    Ev.stage .pre ∈ (execute cRunFail []).2 := by
  have h1 := (C1_lifecycle_short_circuit cPPreFail cPPreFail [] [] [] "ppre boom"
    rfl rfl rfl).1 rfl
  have h2 := (C1_lifecycle_short_circuit cPreFail cPreFail [] [] [] "pre boom"
    rfl rfl rfl).2.1 rfl rfl
  have h3 := (C1_lifecycle_short_circuit cRunFail cRunFail [] [] [] "run boom"
    rfl rfl rfl).2.2 rfl rfl rfl
  exact ⟨h1.1, h1.2.1, h2.1, h2.2.1, h3.1, h3.2.1,
    h3.2.2.2.1 (Or.inl rfl), h3.2.2.2.2 (Or.inl rfl)⟩

lemma errWrite_not_mem_wUse (st : Nat) (m : String) (b : Bool) (n : Nat) (o : String) :
    Ev.errWrite st m ∉ (if b then [Ev.usageWrite n o] else []) := by
  split <;> simp

lemma usageWrite_not_mem_wErr (st : Nat) (o : String) (b : Bool) (n : Nat) (m : String) :
    Ev.usageWrite st o ∉ (if b then [Ev.errWrite n m] else []) := by
  split <;> simp

/-- C2 counterexample: the root has `SilenceErrors` unset, its resolved
target (`sub`) has `SilenceErrors` set, and `sub`'s Run stage fails;
yet the error IS written to the error stream (the code consults the
receiver's flags and streams, not the target's), contradicting the
claim that with the target's `SilenceErrors` set nothing is written. -/
theorem C2_counterexample :
    find rootLoud ["sub"] = (subSilenced, []) ∧
    subSilenced.data.silenceErrors = true ∧
    rootLoud.data.silenceErrors = false ∧
    execute rootLoud ["sub"] =
      (some "boom", [Ev.stage .run, Ev.errWrite stderrId "boom", Ev.usageWrite stdoutId "root"]) ∧
    Ev.errWrite stderrId "boom" ∈ (execute rootLoud ["sub"]).2 := by
  refine ⟨rfl, rfl, rfl, rfl, ?_⟩
  rw [show execute rootLoud ["sub"] =
    (some "boom", [Ev.stage .run, Ev.errWrite stderrId "boom", Ev.usageWrite stdoutId "root"])
    from rfl]
  simp

/-- C2 (amended): on a Run-stage failure the error is returned to the
caller, and the flags and streams consulted are those of the receiver
node on which `execute` was invoked (the root `c`), not the resolved
target: unless `c.SilenceErrors` the error text is written exactly once
to `c`'s error stream; unless `c.SilenceUsage` `c`'s usage text is
written exactly once to `c`'s output stream; with `c.SilenceErrors` set
nothing is written to any error stream but the error is still returned;
and no write occurs on any non-Run-failure outcome of the pipeline. -/
theorem C2_run_failure_side_effects (c cmd : Cmd) (args args1 flags : List String) (e : String)
    (hp : parsePhase c args = Except.ok args1)
    (hf : find c args1 = (cmd, flags))
    (hv : validateArgs cmd flags = none) :
    ((executePersistentPreRun cmd flags).1 = none →
      (executePreRun cmd flags).1 = none →
      (executeRun cmd flags).1 = some e →
      (execute c args).1 = some e ∧
      (c.data.silenceErrors = false →
        (execute c args).2.count (Ev.errWrite c.errOrStderr e) = 1) ∧
      (c.data.silenceErrors = true → ∀ st m, Ev.errWrite st m ∉ (execute c args).2) ∧
      (c.data.silenceUsage = false →
        (execute c args).2.count (Ev.usageWrite c.outOrStdout c.name) = 1) ∧
      (c.data.silenceUsage = true → ∀ st o, Ev.usageWrite st o ∉ (execute c args).2)) ∧
    ((executePersistentPreRun cmd flags).1 = some e → noWrites (execute c args).2) ∧
    ((executePersistentPreRun cmd flags).1 = none →
      (executePreRun cmd flags).1 = some e → noWrites (execute c args).2) ∧
    ((executePersistentPreRun cmd flags).1 = none →
      (executePreRun cmd flags).1 = none →
      (executeRun cmd flags).1 = none → noWrites (execute c args).2) := by
  have hexec := execute_eq_stages c cmd args args1 flags hp hf hv
  refine ⟨?_, ?_, ?_, ?_⟩
  · intro h1 h2 h3
    rcases hq1 : executePersistentPreRun cmd flags with ⟨e1, v1⟩
    rcases hq2 : executePreRun cmd flags with ⟨e2, v2⟩
    rcases hq3 : executeRun cmd flags with ⟨e3, v3⟩
    rw [hq1] at h1
    rw [hq2] at h2
    rw [hq3] at h3
    have h1' : e1 = none := h1
    have h2' : e2 = none := h2
    have h3' : e3 = some e := h3
    subst h1'
    subst h2'
    subst h3'
    have hs := executeStages_runFail c cmd flags e v1 v2 v3 hq1 hq2 hq3
    rw [hexec, hs]
    have hv1 := executePersistentPreRun_trace cmd flags
    rw [hq1] at hv1
    have hv1' : v1 = [] ∨ v1 = [Ev.stage .pPre] := hv1
    have hv2 := executePreRun_trace cmd flags
    rw [hq2] at hv2
    have hv2' : v2 = [] ∨ v2 = [Ev.stage .pre] := hv2
    have hv3 := executeRun_trace cmd flags
    rw [hq3] at hv3
    have hv3' : v3 = [] ∨ v3 = [Ev.stage .run] := hv3
    refine ⟨rfl, ?_, ?_, ?_, ?_⟩
    · intro hse
      have c1 : v1.count (Ev.errWrite c.errOrStderr e) = 0 :=
        List.count_eq_zero.mpr (write_not_mem_of_trace v1 _ hv1' c.errOrStderr e).1
      have c2 : v2.count (Ev.errWrite c.errOrStderr e) = 0 :=
        List.count_eq_zero.mpr (write_not_mem_of_trace v2 _ hv2' c.errOrStderr e).1
      have c3 : v3.count (Ev.errWrite c.errOrStderr e) = 0 :=
        List.count_eq_zero.mpr (write_not_mem_of_trace v3 _ hv3' c.errOrStderr e).1
      simp only [hse, Bool.not_false, if_true, List.count_append, c1, c2, c3]
      split <;> simp
    · intro hse st m
      have w1 := (write_not_mem_of_trace v1 _ hv1' st m).1
      have w2 := (write_not_mem_of_trace v2 _ hv2' st m).1
      have w3 := (write_not_mem_of_trace v3 _ hv3' st m).1
      have wU := errWrite_not_mem_wUse st m (!c.data.silenceUsage) c.outOrStdout c.name
      simp [hse, List.mem_append, w1, w2, w3, wU]
    · intro hsu
      have c1 : v1.count (Ev.usageWrite c.outOrStdout c.name) = 0 :=
        List.count_eq_zero.mpr (write_not_mem_of_trace v1 _ hv1' c.outOrStdout c.name).2
      have c2 : v2.count (Ev.usageWrite c.outOrStdout c.name) = 0 :=
        List.count_eq_zero.mpr (write_not_mem_of_trace v2 _ hv2' c.outOrStdout c.name).2
      have c3 : v3.count (Ev.usageWrite c.outOrStdout c.name) = 0 :=
        List.count_eq_zero.mpr (write_not_mem_of_trace v3 _ hv3' c.outOrStdout c.name).2
      simp only [hsu, Bool.not_false, if_true, List.count_append, c1, c2, c3]
      split <;> simp
    · intro hsu st o
      have w1 := (write_not_mem_of_trace v1 _ hv1' st o).2
      have w2 := (write_not_mem_of_trace v2 _ hv2' st o).2
      have w3 := (write_not_mem_of_trace v3 _ hv3' st o).2
      have wE := usageWrite_not_mem_wErr st o (!c.data.silenceErrors) c.errOrStderr e
      simp [hsu, List.mem_append, w1, w2, w3, wE]
  · intro h1
    rcases hq1 : executePersistentPreRun cmd flags with ⟨e1, v1⟩
    rw [hq1] at h1
    have h1' : e1 = some e := h1
    subst h1'
    rw [hexec, executeStages_pPreFail c cmd flags e v1 hq1]
    intro st m
    have hv1 := executePersistentPreRun_trace cmd flags
    rw [hq1] at hv1
    exact write_not_mem_of_trace v1 _ hv1 st m
  · intro h1 h2
    rcases hq1 : executePersistentPreRun cmd flags with ⟨e1, v1⟩
    rcases hq2 : executePreRun cmd flags with ⟨e2, v2⟩
    rw [hq1] at h1
    rw [hq2] at h2
    have h1' : e1 = none := h1
    have h2' : e2 = some e := h2
    subst h1'
    subst h2'
    rw [hexec, executeStages_preFail c cmd flags e v1 v2 hq1 hq2]
    intro st m
    have hv1 := executePersistentPreRun_trace cmd flags
    rw [hq1] at hv1
    have hv2 := executePreRun_trace cmd flags
    rw [hq2] at hv2
    have w1 := write_not_mem_of_trace v1 _ hv1 st m
    have w2 := write_not_mem_of_trace v2 _ hv2 st m
    constructor
    · simp [List.mem_append, w1.1, w2.1]
    · simp [List.mem_append, w1.2, w2.2]
  · intro h1 h2 h3
    rcases hq1 : executePersistentPreRun cmd flags with ⟨e1, v1⟩
    rcases hq2 : executePreRun cmd flags with ⟨e2, v2⟩
    rcases hq3 : executeRun cmd flags with ⟨e3, v3⟩
    rcases hq4 : executePostRun cmd flags with ⟨e4, v4⟩
    rcases hq5 : executePersistentPostRun cmd flags with ⟨e5, v5⟩
    rw [hq1] at h1
    rw [hq2] at h2
    rw [hq3] at h3
    have h1' : e1 = none := h1
    have h2' : e2 = none := h2
    have h3' : e3 = none := h3
    subst h1'
    subst h2'
    subst h3'
    have hv1 := executePersistentPreRun_trace cmd flags
    rw [hq1] at hv1
    have hv2 := executePreRun_trace cmd flags
    rw [hq2] at hv2
    have hv3 := executeRun_trace cmd flags
    rw [hq3] at hv3
    have hv4 := executePostRun_trace cmd flags
    rw [hq4] at hv4
    have hv5 := executePersistentPostRun_trace cmd flags
    rw [hq5] at hv5
    cases e4 with
    | some e4v =>
      rw [hexec, executeStages_postFail c cmd flags e4v v1 v2 v3 v4 hq1 hq2 hq3 hq4]
      intro st m
      have w1 := write_not_mem_of_trace v1 _ hv1 st m
      have w2 := write_not_mem_of_trace v2 _ hv2 st m
      have w3 := write_not_mem_of_trace v3 _ hv3 st m
      have w4 := write_not_mem_of_trace v4 _ hv4 st m
      constructor
      · simp [List.mem_append, w1.1, w2.1, w3.1, w4.1]
      · simp [List.mem_append, w1.2, w2.2, w3.2, w4.2]
    | none =>
      cases e5 with
      | some e5v =>
        rw [hexec,
          executeStages_pPostFail c cmd flags e5v v1 v2 v3 v4 v5 hq1 hq2 hq3 hq4 hq5]
        intro st m
        have w1 := write_not_mem_of_trace v1 _ hv1 st m
        have w2 := write_not_mem_of_trace v2 _ hv2 st m
        have w3 := write_not_mem_of_trace v3 _ hv3 st m
        have w4 := write_not_mem_of_trace v4 _ hv4 st m
        have w5 := write_not_mem_of_trace v5 _ hv5 st m
        constructor
        · simp [List.mem_append, w1.1, w2.1, w3.1, w4.1, w5.1]
        · simp [List.mem_append, w1.2, w2.2, w3.2, w4.2, w5.2]
      | none =>
        rw [hexec, executeStages_ok c cmd flags v1 v2 v3 v4 v5 hq1 hq2 hq3 hq4 hq5]
        intro st m
        have w1 := write_not_mem_of_trace v1 _ hv1 st m
        have w2 := write_not_mem_of_trace v2 _ hv2 st m
        have w3 := write_not_mem_of_trace v3 _ hv3 st m
        have w4 := write_not_mem_of_trace v4 _ hv4 st m
        have w5 := write_not_mem_of_trace v5 _ hv5 st m
        constructor
        · simp [List.mem_append, w1.1, w2.1, w3.1, w4.1, w5.1]
        · simp [List.mem_append, w1.2, w2.2, w3.2, w4.2, w5.2]

/-- Witness for the amended C2: on a one-node tree with a failing Run
and both silencing flags unset, the error and the usage text are each
written exactly once. -/
theorem C2_run_failure_side_effects_witness :
    (execute cRunFail []).1 = some "run boom" ∧
    (execute cRunFail []).2.count (Ev.errWrite cRunFail.errOrStderr "run boom") = 1 ∧
    (execute cRunFail []).2.count
      (Ev.usageWrite cRunFail.outOrStdout cRunFail.name) = 1 := by
  have h := (C2_run_failure_side_effects cRunFail cRunFail [] [] [] "run boom"
    rfl rfl rfl).1 rfl rfl rfl
  exact ⟨h.1, h.2.1 rfl, h.2.2.2.1 rfl⟩

set_option maxHeartbeats 2000000 in
lemma parseFlags_help_long (fs : List Flag) (rest : List String)
    (h : lookupFlag fs "help" = none) :
    parseFlags fs ("--help" :: rest) = .error "pflag: help requested" := by
  rw [parseFlags.eq_def]
  simp only []
  rw [show "--help".toList = ['-', '-', 'h', 'e', 'l', 'p'] from rfl]
  simp only [if_true]
  rw [show ({ data := List.takeWhile (fun ch => ch != '=') ['h', 'e', 'l', 'p'] } : String)
    = "help" from rfl]
  rw [h]
  simp

set_option maxHeartbeats 2000000 in
lemma parseFlags_help_short (fs : List Flag) (rest : List String)
    (h : lookupShorthand fs "h" = none) :
    parseFlags fs ("-h" :: rest) = .error "pflag: help requested" := by
  rw [parseFlags.eq_def]
  simp only []
  rw [show "-h".toList = ['-', 'h'] from rfl]
  simp only []
  rw [if_neg (by decide)]
  rw [show ({ data := ['h'] } : String) = "h" from rfl]
  rw [h]
  simp

/-- C4 counterexample: with flag parsing disabled on the root and a
`NoArgs` validator, the token `-h` is handed to the validator as an
ordinary positional token and `execute` fails with the validator's
error — the validator is invoked and the failure is its own. -/
theorem C4_counterexample :
    noArgsNoParse.data.disableFlagParsing = true ∧
    validateArgs noArgsNoParse ["-h"] = some "unknown command \"-h\" for \"root\"" ∧
    execute noArgsNoParse ["-h"] = (some "unknown command \"-h\" for \"root\"", []) := by
  exact ⟨rfl, rfl, rfl⟩

/-- C4 (amended): when flag parsing is enabled and the effective flag
set registers neither a `help` flag nor an `h` shorthand, a leading
`--help` or `-h` token makes flag parsing fail with the reserved
help-requested error, so `execute` returns before the positional
validator or any lifecycle stage can run; with flag parsing disabled
(or the token consumed as a flag value) help tokens get no special
treatment and the validator does see them (see the counterexample). -/
theorem C4_help_bypass_amended (c : Cmd) (tok : String) (rest : List String)
    (hdfp : c.data.disableFlagParsing = false)
    (hname : lookupFlag (effectiveFlags c) "help" = none)
    (hsh : lookupShorthand (effectiveFlags c) "h" = none)
    (htok : tok = "--help" ∨ tok = "-h") :
    execute c (tok :: rest) = (some "pflag: help requested", []) ∧
    ∀ s, Ev.stage s ∉ (execute c (tok :: rest)).2 := by
  have hparse : parsePhase c (tok :: rest) = .error "pflag: help requested" := by
    unfold parsePhase
    rw [hdfp]
    simp only [Bool.not_false, if_true]
    rcases htok with h | h <;> subst h
    · exact parseFlags_help_long _ _ hname
    · exact parseFlags_help_short _ _ hsh
  have he := execute_parse_error c (tok :: rest) _ hparse
  exact ⟨he, by rw [he]; simp⟩

/-- Witness for the amended C4: a flagless root given `--help` fails
with the help-requested parse error and an empty trace. -/
theorem C4_help_bypass_amended_witness :
    execute plainRoot ["--help"] = (some "pflag: help requested", []) := by
  exact (C4_help_bypass_amended plainRoot "--help" [] rfl rfl rfl (Or.inl rfl)).1

/-- C7: a flag-parse failure, or a positional-validation failure on the
resolved target, makes `execute` return that error with no lifecycle
stage ever invoked. -/
theorem C7_pre_lifecycle_abort (c cmd : Cmd) (args args1 flags : List String) (e : String) :
    (parsePhase c args = .error e →
      execute c args = (some e, []) ∧ ∀ s, Ev.stage s ∉ (execute c args).2) ∧
    (parsePhase c args = .ok args1 →
      find c args1 = (cmd, flags) →
      validateArgs cmd flags = some e →
      execute c args = (some e, []) ∧ ∀ s, Ev.stage s ∉ (execute c args).2) := by
  constructor
  · intro h
    have he := execute_parse_error c args e h
    exact ⟨he, by rw [he]; simp⟩
  · intro hp hf hv
    have he := execute_validate_error c cmd args args1 flags e hp hf hv
    exact ⟨he, by rw [he]; simp⟩

/-- Witness for C7: an unknown flag aborts before any stage; a NoArgs
violation aborts before any stage. -/
theorem C7_pre_lifecycle_abort_witness :
    execute plainRoot ["--bogus"] = (some "unknown flag: --bogus", []) ∧
    execute noArgsNoParse ["x"] = (some "unknown command \"x\" for \"root\"", []) := by
  constructor
  · exact ((C7_pre_lifecycle_abort plainRoot plainRoot ["--bogus"] [] []
      "unknown flag: --bogus").1 rfl).1
  · exact ((C7_pre_lifecycle_abort noArgsNoParse noArgsNoParse ["x"] ["x"] ["x"]
      "unknown command \"x\" for \"root\"").2 rfl rfl rfl).1

/-- C10: with neither `Run` nor `RunE` on the resolved target, and
tokens that parse, resolve and validate, `execute` still runs the
remaining stages in order and returns nil; the missing Run stage is a
silent no-op, not an error. -/
theorem C10_missing_run_noop (c cmd : Cmd) (args args1 flags : List String)
    (hp : parsePhase c args = Except.ok args1)
    (hf : find c args1 = (cmd, flags))
    (hv : validateArgs cmd flags = none)
    (hrE : cmd.data.runE = none) (hr : cmd.data.run = false)
    (h1 : (executePersistentPreRun cmd flags).1 = none)
    (h2 : (executePreRun cmd flags).1 = none)
    (h4 : (executePostRun cmd flags).1 = none)
    (h5 : (executePersistentPostRun cmd flags).1 = none) :
    (execute c args).1 = none ∧
    (execute c args).2 =
      (executePersistentPreRun cmd flags).2 ++ (executePreRun cmd flags).2 ++
        (executePostRun cmd flags).2 ++ (executePersistentPostRun cmd flags).2 ∧
    Ev.stage .run ∉ (execute c args).2 := by
  have hexec := execute_eq_stages c cmd args args1 flags hp hf hv
  have h3 : executeRun cmd flags = (none, []) := by
    simp [executeRun, hrE, hr]
  rcases hq1 : executePersistentPreRun cmd flags with ⟨e1, v1⟩
  rcases hq2 : executePreRun cmd flags with ⟨e2, v2⟩
  rcases hq4 : executePostRun cmd flags with ⟨e4, v4⟩
  rcases hq5 : executePersistentPostRun cmd flags with ⟨e5, v5⟩
  rw [hq1] at h1
  rw [hq2] at h2
  rw [hq4] at h4
  rw [hq5] at h5
  have h1' : e1 = none := h1
  have h2' : e2 = none := h2
  have h4' : e4 = none := h4
  have h5' : e5 = none := h5
  subst h1'
  subst h2'
  subst h4'
  subst h5'
  have hs := executeStages_ok c cmd flags v1 v2 [] v4 v5 hq1 hq2 h3 hq4 hq5
  rw [hexec, hs]
  have hv1 := executePersistentPreRun_trace cmd flags
  rw [hq1] at hv1
  have hv1' : v1 = [] ∨ v1 = [Ev.stage .pPre] := hv1
  have hv2 := executePreRun_trace cmd flags
  rw [hq2] at hv2
  have hv2' : v2 = [] ∨ v2 = [Ev.stage .pre] := hv2
  have hv4 := executePostRun_trace cmd flags
  rw [hq4] at hv4
  have hv4' : v4 = [] ∨ v4 = [Ev.stage .post] := hv4
  have hv5 := executePersistentPostRun_trace cmd flags
  rw [hq5] at hv5
  have hv5' : v5 = [] ∨ v5 = [Ev.stage .pPost] := hv5
  have A1 := stage_not_mem_of_trace .run .pPre (by decide) v1 hv1'
  have A2 := stage_not_mem_of_trace .run .pre (by decide) v2 hv2'
  have A4 := stage_not_mem_of_trace .run .post (by decide) v4 hv4'
  have A5 := stage_not_mem_of_trace .run .pPost (by decide) v5 hv5'
  refine ⟨rfl, ?_, ?_⟩
  · simp
  · simp [List.mem_append, A1, A2, A4, A5]

/-- Witness for C10: a tree with no Run callbacks still runs PostRun
and PersistentPostRun and returns nil. -/
theorem C10_missing_run_noop_witness :
    (execute cNoRun []).1 = none ∧
    (execute cNoRun []).2 = [Ev.stage .post, Ev.stage .pPost] ∧
    Ev.stage .run ∉ (execute cNoRun []).2 := by
  have h := C10_missing_run_noop cNoRun cNoRun [] [] []
    rfl rfl rfl rfl rfl rfl rfl rfl rfl
  refine ⟨h.1, ?_, h.2.2⟩
  rw [h.2.1]
  rfl

end Mamba
